import Mathlib

/-!
Verification of the htmltest session driver (`htmltest/htmltest.go`).

The definitions below are a shallow embedding of the Go source.  Pure
control flow (option preprocessing, the `Test` driver, `testDocument`,
`testDocuments`, `postChecks`, `CountErrors`) is translated directly from
`htmltest.go`.  Components that live in sibling packages whose source is
not part of this repository snapshot (`issues`, `refcache`) are modelled
from the design document and are marked as such in their doc comments.
-/

namespace Htmltest

/-! ### Issue levels and issues (modelled collaborator `issues`) -/

/-- Modelled from the spec: issue severity levels used by the issue store
(`warning | error`, plus the lower levels the log-level option can name). -/
inductive Level where
  | debug
  | info
  | warning
  | error
  deriving DecidableEq, Repr

/-- Modelled from the spec: a leveled finding.  `document` is the optional
owning document path. -/
structure Issue where
  level : Level
  message : String
  document : Option String := none
  deriving DecidableEq, Repr

/-- Modelled from the spec: the issue store is an append-only list of
issues together with the construction parameters of
`issues.NewIssueStore(logLevel, printImmediately)`. -/
structure IssueStore where
  logLevel : Level
  printImmediately : Bool
  issues : List Issue
  deriving DecidableEq, Repr

/-- Modelled from the spec: `issues.NewIssueStore` builds an empty store
with the given log level and immediate-print flag. -/
def NewIssueStore (level : Level) (printImmediately : Bool) : IssueStore :=
  { logLevel := level, printImmediately := printImmediately, issues := [] }

/-- Modelled from the spec: `AddIssue` appends the issue to the store
(append-only, insertion order preserved). -/
def AddIssue (store : IssueStore) (i : Issue) : IssueStore :=
  { store with issues := store.issues ++ [i] }

/-- Modelled from the spec: `Count(level)` returns the number of stored
issues at the given level. -/
def IssueStore.Count (store : IssueStore) (l : Level) : Nat :=
  (store.issues.filter (fun i => i.level = l)).length

/-- `CountErrors` from `htmltest.go`: `hT.issueStore.Count(issues.LevelError)`. -/
def CountErrors (store : IssueStore) : Nat :=
  store.Count Level.error

/-! ### Options

The merged `Options` struct.  The fields are the ones `htmltest.go`
reads; defaults are those of the upstream documentation (their concrete
values are irrelevant to the theorems below). -/

structure Options where
  FilePath : String := ""
  FileExtension : String := ".html"
  DirectoryPath : String := ""
  DirectoryIndex : String := "index.html"
  OutputDir : String := "tmp/.htmltest"
  OutputCacheFile : String := "refcache.json"
  OutputLogFile : String := "htmltest.log"
  EnableCache : Bool := true
  EnableLog : Bool := true
  NoRun : Bool := false
  LogLevel : Level := Level.warning
  LogSort : String := "document"
  TestFilesConcurrently : Bool := false
  DocumentConcurrencyLimit : Nat := 128
  HTTPConcurrencyLimit : Nat := 16
  ExternalTimeout : Nat := 15
  CheckDoctype : Bool := true
  CheckAnchors : Bool := true
  CheckLinks : Bool := true
  CheckImages : Bool := true
  CheckScripts : Bool := true
  CheckMeta : Bool := true
  CheckGeneric : Bool := true
  CheckFavicon : Bool := false
  deriving DecidableEq, Repr

/-- The user-supplied options map (`optsUser` in `Test`): each recognized
key is either absent (`none`) or present with a value. Only the fields
the embedded code paths consult are carried. -/
structure OptsUser where
  FilePath : Option String := none
  FileExtension : Option String := none
  DirectoryPath : Option String := none
  NoRun : Option Bool := none
  LogLevel : Option Level := none
  LogSort : Option String := none
  EnableCache : Option Bool := none
  EnableLog : Option Bool := none
  TestFilesConcurrently : Option Bool := none
  DocumentConcurrencyLimit : Option Nat := none
  HTTPConcurrencyLimit : Option Nat := none
  ExternalTimeout : Option Nat := none
  CheckDoctype : Option Bool := none
  CheckFavicon : Option Bool := none
  deriving DecidableEq, Repr

/-- Go `path.Ext`, scanning the path backwards: the suffix beginning at
the final dot in the final slash-separated element; empty if there is no
dot.  `goExtRev` walks the reversed character list. -/
def goExtRev : List Char → List Char → String
  | [], _ => ""
  | c :: rest, acc =>
    if c = '/' then ""
    else if c = '.' then String.mk (c :: acc)
    else goExtRev rest (c :: acc)

/-- Go `path.Ext` on a string. -/
def pathExt (p : String) : String :=
  goExtRev p.data.reverse []

/-- Lines 34-37 of `htmltest.go`: if the `FilePath` key is set in the user
options map, the `FileExtension` key is overwritten with
`path.Ext(FilePath)` before the options are merged. -/
def applyFilePathExt (u : OptsUser) : OptsUser :=
  match u.FilePath with
  | some fp => { u with FileExtension := some (pathExt fp) }
  | none => u

/-- Modelled from the spec: `setOptions` merges the user map over the
defaults — a present user value overrides the default, field by field. -/
def mergeOptions (u : OptsUser) : Options :=
  let d : Options := {}
  { d with
    FilePath := u.FilePath.getD d.FilePath
    FileExtension := u.FileExtension.getD d.FileExtension
    DirectoryPath := u.DirectoryPath.getD d.DirectoryPath
    NoRun := u.NoRun.getD d.NoRun
    LogLevel := u.LogLevel.getD d.LogLevel
    LogSort := u.LogSort.getD d.LogSort
    EnableCache := u.EnableCache.getD d.EnableCache
    EnableLog := u.EnableLog.getD d.EnableLog
    TestFilesConcurrently := u.TestFilesConcurrently.getD d.TestFilesConcurrently
    DocumentConcurrencyLimit := u.DocumentConcurrencyLimit.getD d.DocumentConcurrencyLimit
    HTTPConcurrencyLimit := u.HTTPConcurrencyLimit.getD d.HTTPConcurrencyLimit
    ExternalTimeout := u.ExternalTimeout.getD d.ExternalTimeout
    CheckDoctype := u.CheckDoctype.getD d.CheckDoctype
    CheckFavicon := u.CheckFavicon.getD d.CheckFavicon }

/-! ### Documents and the `testDocument` control flow -/

/-- A parsed HTML node as `testDocument` sees it: only the tag name
(`n.Data`) is inspected by the dispatch switch. -/
structure Node where
  Data : String
  deriving DecidableEq, Repr

/-- The per-document mutable state bag; `postChecks` reads
`State.FaviconPresent` after the traversal has populated it. -/
structure DocState where
  FaviconPresent : Bool
  deriving DecidableEq, Repr

/-- A document: its path, its node list after `Parse`, and the state
accumulated during traversal (populated by the checkers, which live
outside this file's scope). -/
structure Document where
  Path : String
  NodesOfInterest : List Node
  State : DocState
  deriving DecidableEq, Repr

/-- Observable steps of `testDocument`, in execution order. -/
inductive Event where
  | parse
  | doctypeCheck
  | nodeCheck (n : Node) (check : String) (attr : String)
  | faviconIssue
  | flushDocument
  deriving DecidableEq, Repr

/-- The tag switch of `testDocument` (lines 156-200): which checks, with
which attribute, run for a node.  The pair is (check kind, attribute);
checks that pick their own attribute carry `""`. -/
def nodeDispatch (opts : Options) (n : Node) : List (String × String) :=
  if n.Data = "a" then (if opts.CheckAnchors then [("link", "")] else []) else
  if n.Data = "link" then (if opts.CheckLinks then [("link", "")] else []) else
  if n.Data = "img" then (if opts.CheckImages then [("img", "")] else []) else
  if n.Data = "script" then (if opts.CheckScripts then [("script", "")] else []) else
  if n.Data = "meta" then (if opts.CheckMeta then [("meta", "")] else []) else
  if n.Data = "area" then (if opts.CheckGeneric then [("generic", "href")] else []) else
  if n.Data = "blockquote" ∨ n.Data = "del" ∨ n.Data = "ins" ∨ n.Data = "q" then
    (if opts.CheckGeneric then [("generic", "cite")] else []) else
  if n.Data = "iframe" ∨ n.Data = "input" ∨ n.Data = "audio" ∨ n.Data = "embed" ∨
      n.Data = "source" ∨ n.Data = "track" then
    (if opts.CheckGeneric then [("generic", "src")] else []) else
  if n.Data = "video" then
    (if opts.CheckGeneric then [("generic", "src"), ("generic", "poster")] else []) else
  if n.Data = "object" then (if opts.CheckGeneric then [("generic", "data")] else []) else
  []

/-- The check events one node contributes to the trace. -/
def checkEvents (opts : Options) (n : Node) : List Event :=
  (nodeDispatch opts n).map (fun ca => Event.nodeCheck n ca.1 ca.2)

/-- The doctype phase (lines 152-154): runs before the node loop when
`CheckDoctype` is enabled. -/
def doctypeEvents (opts : Options) : List Event :=
  if opts.CheckDoctype then [Event.doctypeCheck] else []

/-- The node-loop phase (lines 156-200). -/
def traversalEvents (opts : Options) (doc : Document) : List Event :=
  doc.NodesOfInterest.flatMap (checkEvents opts)

/-- `postChecks` (lines 209-217): emits the favicon-missing issue when the
check is enabled and the traversal did not record a favicon. -/
def postCheckEvents (opts : Options) (doc : Document) : List Event :=
  if opts.CheckFavicon && !doc.State.FaviconPresent then [Event.faviconIssue] else []

/-- Lines 203-206: under `LogSort == "document"` the document's issues are
flushed via `PrintDocumentIssues` once its test finishes. -/
def flushEvents (opts : Options) : List Event :=
  if opts.LogSort = "document" then [Event.flushDocument] else []

/-- The full event trace of `testDocument` (lines 149-207), in program
order: parse, doctype check, node traversal, post checks, optional flush. -/
def testDocumentTrace (opts : Options) (doc : Document) : List Event :=
  (Event.parse :: (doctypeEvents opts ++ traversalEvents opts doc ++ postCheckEvents opts doc))
    ++ flushEvents opts

def isNodeCheckEvent : Event → Bool
  | Event.nodeCheck _ _ _ => true
  | _ => false

def isDoctypeEvent : Event → Bool
  | Event.doctypeCheck => true
  | _ => false

def isFaviconEvent : Event → Bool
  | Event.faviconIssue => true
  | _ => false

/-- `noEventOfAfter f g tr = true` iff no `g`-event occurs anywhere after an
`f`-event in the trace `tr`.  In particular `noEventOfAfter f isNodeCheckEvent`
says the `f`-events happen only after the traversal is over. -/
def noEventOfAfter (f g : Event → Bool) : List Event → Bool
  | [] => true
  | e :: rest => (!f e || rest.all (fun x => !g x)) && noEventOfAfter f g rest

/-! ### Session construction (`Test`, lines 31-72) -/

/-- Go `path.Join` restricted to the shape used on lines 66 and 116; the
`Clean` normalization is irrelevant here and elided. -/
def pathJoin (a b : String) : String := a ++ "/" ++ b

/-- The session fields `Test` initializes before the `NoRun` early return
(lines 42-68): issue store, HTTP client timeout, the global fetch-limiter
channel capacity, and the refcache path. -/
structure Session where
  opts : Options
  issueStore : IssueStore
  httpTimeoutNanos : Nat
  httpChannelCapacity : Nat
  refCachePath : String
  deriving DecidableEq, Repr

/-- The construction phase of `Test` on already-merged options. -/
def mkSession (opts : Options) : Session :=
  { opts := opts
    issueStore := NewIssueStore opts.LogLevel (decide (opts.LogSort = "seq"))
    httpTimeoutNanos := opts.ExternalTimeout * 1000000000
    httpChannelCapacity := opts.HTTPConcurrencyLimit
    refCachePath :=
      if opts.EnableCache then pathJoin opts.OutputDir opts.OutputCacheFile else "" }

/-! ### Concrete instances used by witnesses and counterexamples -/

/-- Default (merged) options, as a concrete instance. -/
def optsDefault : Options := {}

/-- Options with sequential log sorting. -/
def optsSeq : Options := { LogSort := "seq" }

/-- A concrete document with a single anchor node. -/
def docAnchor : Document := { Path := "doc.html", NodesOfInterest := [{ Data := "a" }], State := { FaviconPresent := true } }

/-- A concrete document with no nodes of interest. -/
def docEmpty : Document := { Path := "d.html", NodesOfInterest := [], State := { FaviconPresent := true } }

/-! ### The concurrent document task and Go defer semantics (claim C2) -/

/-- Calls performed by one concurrent-mode document task (the goroutine of
`testDocuments`, lines 135-139): the deferred `wg.Done()`, the
`testDocument` call, and the channel receive returning the pool slot. -/
inductive TaskAction where
  | wgDone
  | runTest
  | releaseSlot
  deriving DecidableEq, Repr

/-- A statement of a Go function body: a plain call, or a `defer`-ed call. -/
inductive GoStmt (α : Type) where
  | call (a : α)
  | deferCall (a : α)
  deriving DecidableEq, Repr

/-- Go execution of a function body.  Plain calls run in order; a call on
which `panics` holds aborts the remainder of the body.  `defer`-ed calls
are pushed on a stack and run (LIFO) on every exit, normal or panicking.
Returns the list of performed calls in order. -/
def runGoBody {α : Type} (panics : α → Bool) : List (GoStmt α) → List α → List α
  | [], defers => defers
  | GoStmt.deferCall a :: rest, defers => runGoBody panics rest (a :: defers)
  | GoStmt.call a :: rest, defers =>
    if panics a then a :: defers
    else a :: runGoBody panics rest defers

/-- The goroutine body spawned per document in concurrent mode
(lines 135-139): `defer wg.Done()`, then `hT.testDocument(document)`, then
the channel receive `<-concChannel`.  Note the receive is NOT deferred. -/
def docTaskBody : List (GoStmt TaskAction) :=
  [GoStmt.deferCall TaskAction.wgDone, GoStmt.call TaskAction.runTest, GoStmt.call TaskAction.releaseSlot]

/-- The calls a document task performs under a given panic behavior. -/
def docTaskRun (panics : TaskAction → Bool) : List TaskAction :=
  runGoBody panics docTaskBody []

/-- The panic behavior in which `testDocument` panics. -/
def panicsOnTest : TaskAction → Bool
  | TaskAction.runTest => true
  | _ => false

/-- The panic behavior in which nothing panics. -/
def noPanics : TaskAction → Bool := fun _ => false

/-- Modelled from the spec: calls performed by one resolver invocation
around the fetch limiter (spec 4.4) — the channel send acquiring a fetch
token, the actual filesystem or network probe, and the channel receive
releasing the token.  The resolver code (the checkers) is outside this
repository snapshot. -/
inductive FetchAction where
  | acquireFetch
  | probe
  | releaseFetch
  deriving DecidableEq, Repr

/-- Modelled from the spec: the resolver body mandated by spec 4.4 — "a
resolver must acquire before performing the actual filesystem or network
probe and release on every exit path".  Release on every exit path is a
deferred call in Go terms, registered right after the acquire. -/
def fetchResolverBody : List (GoStmt FetchAction) :=
  [GoStmt.call FetchAction.acquireFetch, GoStmt.deferCall FetchAction.releaseFetch, GoStmt.call FetchAction.probe]

/-- The calls one resolver invocation performs under a given panic behavior. -/
def fetchResolverRun (panics : FetchAction → Bool) : List FetchAction :=
  runGoBody panics fetchResolverBody []

/-- The fetch-side panic behavior in which nothing panics. -/
def noFetchPanics : FetchAction → Bool := fun _ => false

/-! ### The two bounded-concurrency gates (claim C6)

`Test` makes one buffered channel `httpChannel` of capacity
`HTTPConcurrencyLimit` (line 61), shared globally; `testDocuments` makes a
buffered channel `concChannel` of capacity `DocumentConcurrencyLimit`
(line 131).  A buffered signal channel of capacity `c` is a counting
semaphore: a send (acquire) blocks unless fewer than `c` tokens are held,
a receive (release) requires a held token. -/

/-- How many tokens each gate currently holds: running document tasks and
in-flight outbound probes. -/
structure GateState where
  docTokens : Nat
  fetchTokens : Nat
  deriving DecidableEq, Repr

/-- The capacity of the document pool channel (line 131). -/
def docGateCapacity (opts : Options) : Nat := opts.DocumentConcurrencyLimit

/-- The capacity of the global fetch-limiter channel (line 61). -/
def fetchGateCapacity (opts : Options) : Nat := opts.HTTPConcurrencyLimit

/-- One scheduler step over the two channels: an acquire can only happen
when the corresponding buffered channel is not full, a release only when a
token is held. -/
inductive GateStep (D M : Nat) : GateState → GateState → Prop where
  | docAcquire (s : GateState) (h : s.docTokens < D) :
      GateStep D M s { s with docTokens := s.docTokens + 1 }
  | docRelease (s : GateState) (h : 0 < s.docTokens) :
      GateStep D M s { s with docTokens := s.docTokens - 1 }
  | fetchAcquire (s : GateState) (h : s.fetchTokens < M) :
      GateStep D M s { s with fetchTokens := s.fetchTokens + 1 }
  | fetchRelease (s : GateState) (h : 0 < s.fetchTokens) :
      GateStep D M s { s with fetchTokens := s.fetchTokens - 1 }

/-- States reachable from the empty gates at the start of a run. -/
inductive GateReachable (D M : Nat) : GateState → Prop where
  | init : GateReachable D M { docTokens := 0, fetchTokens := 0 }
  | step {s t : GateState} (hs : GateReachable D M s) (hstep : GateStep D M s t) :
      GateReachable D M t

/-! ### Issues emitted by a document test -/

/-- The issue `postChecks` adds when the favicon is missing (lines 211-216). -/
def faviconMissingIssue : Issue := { level := Level.error, message := "favicon missing" }

/-- The warning `testDocuments` adds before running concurrently
(lines 125-128). -/
def advisoryIssue : Issue := { level := Level.warning, message := "running in concurrent mode, this is experimental" }

/-- Issues contributed by one trace event.  The reference checkers and the
doctype checker live outside this repository snapshot, so their output is
abstracted by `emit`; the favicon post-check issue is concrete in `postChecks`. -/
def eventIssues (emit : Event → List Issue) : Event → List Issue
  | Event.doctypeCheck => emit Event.doctypeCheck
  | Event.nodeCheck n c a => emit (Event.nodeCheck n c a)
  | Event.faviconIssue => [faviconMissingIssue]
  | _ => []

/-- The issues one `testDocument` call adds to the store, in program order. -/
def testDocumentIssues (emit : Event → List Issue) (opts : Options) (doc : Document) : List Issue :=
  (testDocumentTrace opts doc).flatMap (eventIssues emit)

/-- Sequential `testDocuments` (lines 142-146): each document in discovery
order, issues concatenated. -/
def testDocumentsSeqIssues (emit : Event → List Issue) (opts : Options) (docs : List Document) : List Issue :=
  docs.flatMap (testDocumentIssues emit opts)

/-! ### The `Test` driver (claims C5 and C10) -/

/-- The facts about the outside world one run observes: the root directory
checks (lines 75-85), the discovered document list (line 95), and the
`ResolvePath` result for single-document mode (line 99). -/
structure Env where
  rootExists : Bool
  statOk : Bool
  rootIsDir : Bool
  docs : List Document
  resolved : Option Document
  deriving DecidableEq, Repr

/-- The externally visible effects of one `Test` run. -/
structure RunEffects where
  openedRoot : Bool
  discovered : Bool
  testedDocs : Nat
  issuesAdded : List Issue
  wroteCache : Bool
  wroteLog : Bool
  abortedWith : Option String
  deriving DecidableEq, Repr

/-- No effects at all. -/
def emptyEffects : RunEffects :=
  { openedRoot := false, discovered := false, testedDocs := 0, issuesAdded := [],
    wroteCache := false, wroteLog := false, abortedWith := none }

/-- The merged options a run uses: the `FilePath` preprocessing of lines
34-37 followed by `setOptions`. -/
def runOpts (u : OptsUser) : Options :=
  mergeOptions (applyFilePathExt u)

/-- End-of-run persistence (lines 112-118): the accumulated issues land in
the session store; cache and log files are written when enabled. -/
def finishRun (opts : Options) (s : Session) (eff : RunEffects) : Session × RunEffects :=
  ({ s with issueStore := { s.issueStore with issues := eff.issuesAdded } },
    { eff with wroteCache := opts.EnableCache, wroteLog := opts.EnableLog })

/-- The `Test` driver (lines 31-121): option preprocessing and merge,
session construction, the `NoRun` early return, the fatal pre-flight
checks, discovery, document testing (issues listed in program order; in
concurrent mode the advisory warning is added first), and the final
writes.  `output.AbortWith` is modelled as an immediate return carrying
the message, with no further effects. -/
def TestRun (emit : Event → List Issue) (u : OptsUser) (env : Env) : Session × RunEffects :=
  let opts := runOpts u
  let s := mkSession opts
  if opts.NoRun then (s, emptyEffects)
  else if env.rootExists = false then
    (s, { emptyEffects with openedRoot := true, abortedWith := some ("Cannot access " ++ opts.DirectoryPath ++ ", no such directory.") })
  else if env.statOk = false then
    (s, { emptyEffects with openedRoot := true, abortedWith := some "stat failed" })
  else if env.rootIsDir = false then
    (s, { emptyEffects with openedRoot := true, abortedWith := some ("DirectoryIndex " ++ opts.DirectoryPath ++ " is a file, not a directory.") })
  else
    let base := { emptyEffects with openedRoot := true, discovered := true }
    if opts.FilePath ≠ "" then
      match env.resolved with
      | none => (s, { base with abortedWith := some ("Could not find document " ++ opts.FilePath ++ " in " ++ opts.DirectoryPath) })
      | some doc =>
        finishRun opts s { base with testedDocs := 1, issuesAdded := testDocumentIssues emit opts doc }
    else if opts.DirectoryPath ≠ "" then
      finishRun opts s { base with testedDocs := env.docs.length, issuesAdded := (if opts.TestFilesConcurrently then [advisoryIssue] else []) ++ testDocumentsSeqIssues emit opts env.docs }
    else (s, { base with abortedWith := some "Neither file or directory path provided" })

/-- A checker emitting nothing, for concrete instances. -/
def emitNone : Event → List Issue := fun _ => []

/-- User options requesting `NoRun`. -/
def uNoRun : OptsUser := { NoRun := some true }

/-- A benign environment: root exists and is a directory, nothing found. -/
def envOk : Env := { rootExists := true, statOk := true, rootIsDir := true, docs := [], resolved := none }

/-- An environment whose root directory is missing. -/
def envNoRoot : Env := { rootExists := false, statOk := true, rootIsDir := true, docs := [], resolved := none }

/-! ### The single-flight reference cache (claim C1)

Modelled from the spec: the `refcache` package is not part of this
repository snapshot, only its call sites are.  Section 4.3 of the design
describes `Resolve(key, resolver)`: a fresh entry is returned without
invoking the resolver; on a miss the key is marked in-flight and the
resolver invoked once; a caller that finds the key in flight suspends and
reuses the result.  The model below is that protocol as a transition
system over an arbitrary interleaving of tasks; freshness is evaluated at
a fixed instant, so an entry is either fresh (`resolved`) or treated as
absent. -/

/-- Modelled from the spec: a resolution status (`valid`, `invalid`, or a
transport error). -/
inductive RStatus where
  | valid
  | invalid
  | failed
  deriving DecidableEq, Repr

/-- Modelled from the spec: the cache's record for one key — no fresh
entry, a resolution in flight started by task `owner`, or a stored fresh
status. -/
inductive EntrySt where
  | absent
  | inflight (owner : Nat)
  | resolved (s : RStatus)
  deriving DecidableEq, Repr

/-- Modelled from the spec: what one calling task is doing — not yet
arrived, running the resolver itself, suspended behind another task's
resolution, or finished having observed a status. -/
inductive TaskSt where
  | pending
  | resolving
  | waiting
  | finished (s : RStatus)
  deriving DecidableEq, Repr

/-- The shared cache state plus the per-task states and a per-key count of
real resolver invocations. -/
structure SFState where
  entry : String → EntrySt
  invocations : String → Nat
  task : Nat → TaskSt

/-- Modelled from the spec: the atomic transitions of `Resolve` under an
arbitrary scheduler.  `key t` is the (fixed) key task `t` demands.
A resolver result is arbitrary, hence `complete` takes any status. -/
inductive SFStep (key : Nat → String) : SFState → SFState → Prop where
  | hit (st : SFState) (t : Nat) (s : RStatus)
      (hp : st.task t = TaskSt.pending)
      (he : st.entry (key t) = EntrySt.resolved s) :
      SFStep key st { st with task := Function.update st.task t (TaskSt.finished s) }
  | start (st : SFState) (t : Nat)
      (hp : st.task t = TaskSt.pending)
      (he : st.entry (key t) = EntrySt.absent) :
      SFStep key st
        { entry := Function.update st.entry (key t) (EntrySt.inflight t),
          invocations := Function.update st.invocations (key t) (st.invocations (key t) + 1),
          task := Function.update st.task t TaskSt.resolving }
  | complete (st : SFState) (t : Nat) (s : RStatus)
      (hp : st.task t = TaskSt.resolving)
      (he : st.entry (key t) = EntrySt.inflight t) :
      SFStep key st
        { st with
          entry := Function.update st.entry (key t) (EntrySt.resolved s),
          task := Function.update st.task t (TaskSt.finished s) }
  | join (st : SFState) (t u : Nat)
      (hp : st.task t = TaskSt.pending)
      (he : st.entry (key t) = EntrySt.inflight u) :
      SFStep key st { st with task := Function.update st.task t TaskSt.waiting }
  | wake (st : SFState) (t : Nat) (s : RStatus)
      (hp : st.task t = TaskSt.waiting)
      (he : st.entry (key t) = EntrySt.resolved s) :
      SFStep key st { st with task := Function.update st.task t (TaskSt.finished s) }

/-- A legal initial state of one run: no resolver has run yet, nothing is
in flight (a warm cache may hold resolved entries), every task is pending. -/
def SFInit (st : SFState) : Prop :=
  (∀ k, st.invocations k = 0) ∧
  (∀ k u, st.entry k ≠ EntrySt.inflight u) ∧
  (∀ t, st.task t = TaskSt.pending)

/-- Reachability under arbitrary interleavings. -/
inductive SFReach (key : Nat → String) : SFState → SFState → Prop where
  | refl (st : SFState) : SFReach key st st
  | tail {st st' st'' : SFState} (h : SFReach key st st') (hstep : SFStep key st' st'') :
      SFReach key st st''

/-- The inductive invariant of the single-flight protocol. -/
def SFInv (key : Nat → String) (st : SFState) : Prop :=
  (∀ k, st.invocations k ≤ 1) ∧
  (∀ k, st.entry k = EntrySt.absent → st.invocations k = 0) ∧
  (∀ t s, st.task t = TaskSt.finished s → st.entry (key t) = EntrySt.resolved s)

/-- The concrete single-flight scenario: one key, cold cache. -/
def sfKey : Nat → String := fun _ => "k"

/-- The cold initial state for the witness scenario. -/
def sfInit0 : SFState :=
  { entry := fun _ => EntrySt.absent, invocations := fun _ => 0, task := fun _ => TaskSt.pending }

/-- After task 0 starts resolving "k". -/
def sfSt1 : SFState :=
  { entry := Function.update sfInit0.entry (sfKey 0) (EntrySt.inflight 0),
    invocations := Function.update sfInit0.invocations (sfKey 0) (sfInit0.invocations (sfKey 0) + 1),
    task := Function.update sfInit0.task 0 TaskSt.resolving }

/-- After task 0 stores `valid` and finishes. -/
def sfSt2 : SFState :=
  { sfSt1 with
    entry := Function.update sfSt1.entry (sfKey 0) (EntrySt.resolved RStatus.valid),
    task := Function.update sfSt1.task 0 (TaskSt.finished RStatus.valid) }

/-! ### Concurrent mode outputs (claim C4) -/

/-- `Interleave ls out`: `out` is an order-preserving interleaving of the
lists in `ls` — at each step the scheduler takes the head of one of the
per-task sequences.  This is how the issues of concurrently running
document tasks reach the shared store. -/
inductive Interleave {α : Type} : List (List α) → List α → Prop where
  | done (ls : List (List α)) (h : ∀ l ∈ ls, l = []) : Interleave ls []
  | pick (ls : List (List α)) (i : Nat) (x : α) (rest out : List α)
      (hget : ls.get? i = some (x :: rest))
      (htail : Interleave (ls.set i rest) out) :
      Interleave ls (x :: out)

/-- The issue sequences the concurrent `testDocuments` (lines 124-141) can
deliver to the store: the advisory warning is added first (line 125,
before any goroutine is spawned), followed by any interleaving of the
per-document issue sequences. -/
def ConcurrentRunOutput (emit : Event → List Issue) (opts : Options)
    (docs : List Document) (out : List Issue) : Prop :=
  ∃ body, Interleave (docs.map (testDocumentIssues emit opts)) body ∧
    out = advisoryIssue :: body

/-- Options with the favicon check enabled. -/
def optsFav : Options := { CheckFavicon := true }

/-- A document without a favicon. -/
def docNoFav : Document := { Path := "f.html", NodesOfInterest := [], State := { FaviconPresent := false } }

end Htmltest

namespace Htmltest

/-! ### Helper lemmas about traces -/

theorem mem_ite_singleton {α : Type} {c : Prop} [Decidable c] {a e : α}
    (h : e ∈ (if c then [a] else ([] : List α))) : e = a := by
  by_cases hc : c
  · rw [if_pos hc] at h
    exact List.mem_singleton.mp h
  · rw [if_neg hc] at h
    exact absurd h (List.not_mem_nil e)

theorem mem_doctypeEvents {opts : Options} {e : Event}
    (h : e ∈ doctypeEvents opts) : e = Event.doctypeCheck := by
  simp only [doctypeEvents] at h
  exact mem_ite_singleton h

theorem mem_postCheckEvents {opts : Options} {doc : Document} {e : Event}
    (h : e ∈ postCheckEvents opts doc) : e = Event.faviconIssue := by
  simp only [postCheckEvents] at h
  exact mem_ite_singleton h

theorem mem_flushEvents {opts : Options} {e : Event}
    (h : e ∈ flushEvents opts) : e = Event.flushDocument := by
  simp only [flushEvents] at h
  exact mem_ite_singleton h

theorem traversalEvents_shape (opts : Options) (doc : Document) :
    ∀ e ∈ traversalEvents opts doc, ∃ n c a, e = Event.nodeCheck n c a := by
  intro e he
  simp only [traversalEvents, List.mem_flatMap, checkEvents, List.mem_map] at he
  obtain ⟨n, _, ca, _, rfl⟩ := he
  exact ⟨n, ca.1, ca.2, rfl⟩

theorem noEventOfAfter_of_no_g (f g : Event → Bool) :
    ∀ (l : List Event), (∀ e ∈ l, g e = false) → noEventOfAfter f g l = true := by
  intro l
  induction l with
  | nil => intro _; rfl
  | cons e rest ih =>
    intro h
    have hall : rest.all (fun x => !g x) = true := by
      rw [List.all_eq_true]
      intro x hx
      simp [h x (List.mem_cons_of_mem e hx)]
    simp only [noEventOfAfter, hall, Bool.or_true, Bool.true_and]
    exact ih (fun x hx => h x (List.mem_cons_of_mem e hx))

theorem noEventOfAfter_split (f g : Event → Bool) (xs ys l : List Event)
    (hl : l = xs ++ ys)
    (h1 : ∀ e ∈ xs, f e = false) (h2 : ∀ e ∈ ys, g e = false) :
    noEventOfAfter f g l = true := by
  subst hl
  induction xs with
  | nil => exact noEventOfAfter_of_no_g f g ys h2
  | cons x xs ih =>
    have hx : f x = false := h1 x (List.mem_cons_self x xs)
    simp only [List.cons_append, noEventOfAfter, hx, Bool.not_false, Bool.true_or,
      Bool.true_and]
    exact ih (fun e he => h1 e (List.mem_cons_of_mem x he))

theorem getLast?_append_single {α : Type} (l : List α) (a : α) :
    (l ++ [a]).getLast? = some a := by
  induction l with
  | nil => rfl
  | cons x xs ih =>
    cases xs with
    | nil => rfl
    | cons y ys => simpa [List.cons_append, List.getLast?_cons_cons] using ih

/-! ### Theorems for claims C8 and C9 -/

/-- Claim C8: after any sequence of issue insertions, `CountErrors()`
returns exactly the number of stored issues whose level is Error. -/
theorem C8_count_errors_accuracy (inserted : List Issue) (level : Level) (pim : Bool) :
    CountErrors (inserted.foldl AddIssue (NewIssueStore level pim)) =
      (inserted.filter (fun i => i.level = Level.error)).length := by
  suffices h : ∀ (store : IssueStore),
      CountErrors (inserted.foldl AddIssue store) =
        CountErrors store + (inserted.filter (fun i => i.level = Level.error)).length by
    simpa [CountErrors, IssueStore.Count, NewIssueStore] using h (NewIssueStore level pim)
  induction inserted with
  | nil => intro store; simp
  | cons i rest ih =>
    intro store
    rw [List.foldl_cons, ih]
    by_cases hi : i.level = Level.error
    · simp [CountErrors, IssueStore.Count, AddIssue, hi, List.filter_append]
      omega
    · simp [CountErrors, IssueStore.Count, AddIssue, hi, List.filter_append]

/-- Claim C9: if the `FilePath` option is set, the merged options carry
`path.Ext(FilePath)` as `FileExtension`, whatever `FileExtension` the user
supplied. -/
theorem C9_filepath_overrides_extension (u : OptsUser) (fp : String)
    (h : u.FilePath = some fp) :
    (mergeOptions (applyFilePathExt u)).FileExtension = pathExt fp := by
  simp [applyFilePathExt, h, mergeOptions]

/-- Witness for C9 at a concrete input: `FilePath = "dir/page.html"` with a
user-supplied `FileExtension = ".txt"` yields `.html`. -/
theorem C9_filepath_overrides_extension_witness :
    (mergeOptions (applyFilePathExt
      { FilePath := some "dir/page.html", FileExtension := some ".txt" })).FileExtension =
      pathExt "dir/page.html" ∧ pathExt "dir/page.html" = ".html" :=
  ⟨C9_filepath_overrides_extension
      { FilePath := some "dir/page.html", FileExtension := some ".txt" } "dir/page.html" rfl,
    by decide⟩

/-! ### Claim C3: which checks are post-traversal -/

/-- Counterexample to claim C3: the doctype check is NOT a post-traversal
check.  On a document with a single anchor node and default options the
trace runs the doctype check before the node traversal, so a node check
occurs after the doctype event. -/
theorem C3_doctype_precheck_counterexample :
    noEventOfAfter isDoctypeEvent isNodeCheckEvent
      (testDocumentTrace optsDefault docAnchor) = false := by decide

/-- Claim C3 amended: the favicon presence check is a post-traversal check
(no node check follows it), while the doctype presence check runs before
the traversal (no doctype event follows any node check). -/
theorem C3_post_traversal_amended (opts : Options) (doc : Document) :
    noEventOfAfter isFaviconEvent isNodeCheckEvent (testDocumentTrace opts doc) = true ∧
    noEventOfAfter isNodeCheckEvent isDoctypeEvent (testDocumentTrace opts doc) = true := by
  constructor
  · apply noEventOfAfter_split isFaviconEvent isNodeCheckEvent
      (Event.parse :: (doctypeEvents opts ++ traversalEvents opts doc))
      (postCheckEvents opts doc ++ flushEvents opts)
    · simp [testDocumentTrace]
    · intro e he
      rcases List.mem_cons.mp he with rfl | he
      · rfl
      · rcases List.mem_append.mp he with hd | ht
        · rw [mem_doctypeEvents hd]; rfl
        · obtain ⟨n, c, a, rfl⟩ := traversalEvents_shape opts doc e ht
          rfl
    · intro e he
      rcases List.mem_append.mp he with hp | hf
      · rw [mem_postCheckEvents hp]; rfl
      · rw [mem_flushEvents hf]; rfl
  · apply noEventOfAfter_split isNodeCheckEvent isDoctypeEvent
      (Event.parse :: doctypeEvents opts)
      (traversalEvents opts doc ++ (postCheckEvents opts doc ++ flushEvents opts))
    · simp [testDocumentTrace]
    · intro e he
      rcases List.mem_cons.mp he with rfl | hd
      · rfl
      · rw [mem_doctypeEvents hd]; rfl
    · intro e he
      rcases List.mem_append.mp he with ht | he2
      · obtain ⟨n, c, a, rfl⟩ := traversalEvents_shape opts doc e ht
        rfl
      · rcases List.mem_append.mp he2 with hp | hf
        · rw [mem_postCheckEvents hp]; rfl
        · rw [mem_flushEvents hf]; rfl

/-! ### Claim C7: LogSort modes -/

/-- Claim C7: the issue store is created in print-immediately mode exactly
when `LogSort` is `"seq"`; when `LogSort` is `"document"` the document's
issues are flushed via `PrintDocumentIssues` as the final step of
`testDocument`, and in any other mode no flush happens. -/
theorem C7_log_sort_modes (opts : Options) (doc : Document) :
    ((mkSession opts).issueStore.printImmediately = true ↔ opts.LogSort = "seq") ∧
    (opts.LogSort = "document" →
      (testDocumentTrace opts doc).getLast? = some Event.flushDocument) ∧
    (opts.LogSort ≠ "document" →
      Event.flushDocument ∉ testDocumentTrace opts doc) := by
  refine ⟨?_, ?_, ?_⟩
  · simp [mkSession, NewIssueStore]
  · intro h
    rw [testDocumentTrace, flushEvents, if_pos h]
    exact getLast?_append_single _ _
  · intro h hmem
    rw [testDocumentTrace, flushEvents, if_neg h, List.append_nil] at hmem
    rcases List.mem_cons.mp hmem with heq | hmem
    · exact Event.noConfusion heq
    · rcases List.mem_append.mp hmem with hm | hp
      · rcases List.mem_append.mp hm with hd | ht
        · exact Event.noConfusion (mem_doctypeEvents hd)
        · obtain ⟨n, c, a, heq⟩ := traversalEvents_shape opts doc _ ht
          exact Event.noConfusion heq
      · exact Event.noConfusion (mem_postCheckEvents hp)

/-- Witness for C7 at concrete inputs: a `"document"`-sorted session defers
and flushes last; a `"seq"`-sorted session prints immediately and never
flushes. -/
theorem C7_log_sort_modes_witness :
    ((mkSession optsSeq).issueStore.printImmediately = true ↔ optsSeq.LogSort = "seq") ∧
    (testDocumentTrace optsDefault docEmpty).getLast? = some Event.flushDocument ∧
    Event.flushDocument ∉ testDocumentTrace optsSeq docEmpty :=
  ⟨(C7_log_sort_modes optsSeq docEmpty).1,
    (C7_log_sort_modes optsDefault docEmpty).2.1 rfl,
    (C7_log_sort_modes optsSeq docEmpty).2.2 (by decide)⟩

/-! ### Claim C2: token release on every exit path -/

/-- Counterexample to claim C2: when `testDocument` panics, the document
task performs the deferred `wg.Done()` but never performs the channel
receive that returns the document-pool slot — the release is not on a
`defer`, so it is skipped on the panic-equivalent exit path. -/
theorem C2_release_on_panic_counterexample :
    (docTaskRun panicsOnTest).count TaskAction.releaseSlot = 0 ∧
    (docTaskRun panicsOnTest).count TaskAction.wgDone = 1 := by decide

/-- Claim C2 amended: a fetch-limiter token is acquired before the probe
and released exactly once on every exit path of the resolver, panic
included (spec 4.4, the resolver code being outside this snapshot); for
the document pool, the deferred `wg.Done()` runs exactly once on every
exit of the task, and the pool slot is released exactly once on a normal
exit but is NOT released when `testDocument` exits by panic (the channel
receive on line 138 is not deferred). -/
theorem C2_token_release_amended (panics : TaskAction → Bool) (fpanics : FetchAction → Bool)
    (hrel : panics TaskAction.releaseSlot = false)
    (hfa : fpanics FetchAction.acquireFetch = false) :
    ((fetchResolverRun fpanics).head? = some FetchAction.acquireFetch ∧
      (fetchResolverRun fpanics).count FetchAction.releaseFetch = 1) ∧
    ((docTaskRun panics).count TaskAction.wgDone = 1 ∧
      (panics TaskAction.runTest = false →
        (docTaskRun panics).count TaskAction.releaseSlot = 1) ∧
      (panics TaskAction.runTest = true →
        (docTaskRun panics).count TaskAction.releaseSlot = 0)) := by
  constructor
  · cases hq : fpanics FetchAction.probe <;>
      simp [fetchResolverRun, fetchResolverBody, runGoBody, hq, hfa, List.count_cons,
        List.count_nil]
  · cases hp : panics TaskAction.runTest <;>
      simp [docTaskRun, docTaskBody, runGoBody, hp, hrel, List.count_cons, List.count_nil]

/-- Witness for C2 amended, at the panic-free behaviors. -/
theorem C2_token_release_amended_witness :
    ((fetchResolverRun noFetchPanics).head? = some FetchAction.acquireFetch ∧
      (fetchResolverRun noFetchPanics).count FetchAction.releaseFetch = 1) ∧
    ((docTaskRun noPanics).count TaskAction.wgDone = 1 ∧
      (noPanics TaskAction.runTest = false →
        (docTaskRun noPanics).count TaskAction.releaseSlot = 1) ∧
      (noPanics TaskAction.runTest = true →
        (docTaskRun noPanics).count TaskAction.releaseSlot = 0)) :=
  C2_token_release_amended noPanics noFetchPanics rfl rfl

/-! ### Claim C6: two independently sized bounded-parallelism gates -/

/-- Claim C6: in every reachable state of the two gates, at most
`DocumentConcurrencyLimit` document tasks are running and at most
`HTTPConcurrencyLimit` probes are in flight; the fetch gate is the single
session-wide channel created with capacity `HTTPConcurrencyLimit`,
independent of the document pool capacity. -/
theorem C6_bounded_gates (opts : Options) (s : GateState)
    (hr : GateReachable (docGateCapacity opts) (fetchGateCapacity opts) s) :
    s.docTokens ≤ opts.DocumentConcurrencyLimit ∧
    s.fetchTokens ≤ opts.HTTPConcurrencyLimit ∧
    (mkSession opts).httpChannelCapacity = opts.HTTPConcurrencyLimit := by
  refine ⟨?_, ?_, rfl⟩ <;>
  · induction hr with
    | init => simp
    | step hs hstep ih =>
      cases hstep with
      | docAcquire h => simp_all [docGateCapacity] <;> omega
      | docRelease h => simp_all <;> omega
      | fetchAcquire h => simp_all [fetchGateCapacity] <;> omega
      | fetchRelease h => simp_all <;> omega

/-- Witness for C6: a concrete reachable state holding one token of each
kind under the default limits. -/
theorem C6_bounded_gates_witness :
    ({ docTokens := 1, fetchTokens := 1 } : GateState).docTokens ≤
        optsDefault.DocumentConcurrencyLimit ∧
    ({ docTokens := 1, fetchTokens := 1 } : GateState).fetchTokens ≤
        optsDefault.HTTPConcurrencyLimit ∧
    (mkSession optsDefault).httpChannelCapacity = optsDefault.HTTPConcurrencyLimit :=
  C6_bounded_gates optsDefault { docTokens := 1, fetchTokens := 1 }
    (GateReachable.step
      (GateReachable.step GateReachable.init
        (GateStep.docAcquire { docTokens := 0, fetchTokens := 0 } (by decide)))
      (GateStep.fetchAcquire { docTokens := 1, fetchTokens := 0 } (by decide)))

/-! ### Claim C5: fatal pre-flight conditions abort before any testing -/

/-- Claim C5: each fatal pre-flight condition — a missing root, an
unreadable root (the `f.Stat()` error hitting `CheckErrorPanic` on lines
80-81), the root being a file rather than a directory, or a requested
single document not found — aborts the run with a message, before any
document is tested: no documents are tested, no check issues are emitted,
and neither cache nor log is written. -/
theorem C5_fatal_preflight_aborts (emit : Event → List Issue) (u : OptsUser) (env : Env)
    (hNoRun : (runOpts u).NoRun = false)
    (hFatal : env.rootExists = false ∨
      (env.rootExists = true ∧ env.statOk = false) ∨
      (env.rootExists = true ∧ env.statOk = true ∧ env.rootIsDir = false) ∨
      (env.rootExists = true ∧ env.statOk = true ∧ env.rootIsDir = true ∧
        (runOpts u).FilePath ≠ "" ∧ env.resolved = none)) :
    ((TestRun emit u env).2.abortedWith).isSome = true ∧
    (TestRun emit u env).2.testedDocs = 0 ∧
    (TestRun emit u env).2.issuesAdded = [] ∧
    (TestRun emit u env).2.wroteCache = false ∧
    (TestRun emit u env).2.wroteLog = false := by
  rcases hFatal with h1 | ⟨h1, h2⟩ | ⟨h1, h2, h3⟩ | ⟨h1, h2, h3, h4, h5⟩ <;>
    simp [TestRun, hNoRun, h1, emptyEffects] <;>
    simp_all [emptyEffects]

/-- Witness for C5: with default options and a missing root directory the
run aborts with no partial results. -/
theorem C5_fatal_preflight_aborts_witness :
    ((TestRun emitNone {} envNoRoot).2.abortedWith).isSome = true ∧
    (TestRun emitNone {} envNoRoot).2.testedDocs = 0 ∧
    (TestRun emitNone {} envNoRoot).2.issuesAdded = [] ∧
    (TestRun emitNone {} envNoRoot).2.wroteCache = false ∧
    (TestRun emitNone {} envNoRoot).2.wroteLog = false :=
  C5_fatal_preflight_aborts emitNone {} envNoRoot rfl (Or.inl rfl)

/-! ### Claim C10: the NoRun early return -/

/-- Claim C10: with `NoRun` set, `Test` returns the freshly constructed
session (options, empty issue store, HTTP client timeout, fetch-limiter
channel, refcache path) with no effects at all: the root is never opened,
nothing is discovered or tested, no issue is added, and neither the cache
file nor the log file is written. -/
theorem C10_norun_early_return (emit : Event → List Issue) (u : OptsUser) (env : Env)
    (h : (runOpts u).NoRun = true) :
    TestRun emit u env = (mkSession (runOpts u), emptyEffects) ∧
    (mkSession (runOpts u)).issueStore.issues = [] := by
  constructor
  · simp [TestRun, h]
  · simp [mkSession, NewIssueStore]

/-- Witness for C10 with `NoRun` requested in the user options. -/
theorem C10_norun_early_return_witness :
    TestRun emitNone uNoRun envOk = (mkSession (runOpts uNoRun), emptyEffects) ∧
    (mkSession (runOpts uNoRun)).issueStore.issues = [] :=
  C10_norun_early_return emitNone uNoRun envOk rfl

/-! ### Claim C1: single-flight deduplication -/

theorem SFInv_init {st : SFState} (h : SFInit st) (key : Nat → String) : SFInv key st := by
  obtain ⟨h1, _, h3⟩ := h
  refine ⟨fun k => by rw [h1 k]; exact Nat.zero_le 1, fun k _ => h1 k, ?_⟩
  intro t s ht
  rw [h3 t] at ht
  exact TaskSt.noConfusion ht

theorem SFInv_step {key : Nat → String} {st st' : SFState}
    (hinv : SFInv key st) (hstep : SFStep key st st') : SFInv key st' := by
  obtain ⟨h1, h2, h3⟩ := hinv
  cases hstep with
  | hit t s hp he =>
    refine ⟨h1, h2, ?_⟩
    intro u s' hu
    dsimp only at hu ⊢
    rw [Function.update_apply] at hu
    by_cases hut : u = t
    · rw [if_pos hut] at hu
      injection hu with hss
      subst hss
      rw [hut]
      exact he
    · rw [if_neg hut] at hu
      exact h3 u s' hu
  | start t hp he =>
    refine ⟨?_, ?_, ?_⟩
    · intro k
      dsimp only
      rw [Function.update_apply]
      by_cases hk : k = key t
      · rw [if_pos hk]
        rw [h2 (key t) he]
      · rw [if_neg hk]
        exact h1 k
    · intro k hk'
      dsimp only at hk' ⊢
      rw [Function.update_apply] at hk'
      rw [Function.update_apply]
      by_cases hk : k = key t
      · rw [if_pos hk] at hk'
        exact EntrySt.noConfusion hk'
      · rw [if_neg hk] at hk'
        rw [if_neg hk]
        exact h2 k hk'
    · intro u s' hu
      dsimp only at hu ⊢
      rw [Function.update_apply] at hu
      by_cases hut : u = t
      · rw [if_pos hut] at hu
        exact TaskSt.noConfusion hu
      · rw [if_neg hut] at hu
        have h3u := h3 u s' hu
        rw [Function.update_apply]
        by_cases hkk : key u = key t
        · rw [hkk, he] at h3u
          exact EntrySt.noConfusion h3u
        · rw [if_neg hkk]
          exact h3u
  | complete t s hp he =>
    refine ⟨h1, ?_, ?_⟩
    · intro k hk'
      dsimp only at hk' ⊢
      rw [Function.update_apply] at hk'
      by_cases hk : k = key t
      · rw [if_pos hk] at hk'
        exact EntrySt.noConfusion hk'
      · rw [if_neg hk] at hk'
        exact h2 k hk'
    · intro u s' hu
      dsimp only at hu ⊢
      rw [Function.update_apply] at hu
      rw [Function.update_apply]
      by_cases hut : u = t
      · rw [if_pos hut] at hu
        injection hu with hss
        subst hss
        rw [hut, if_pos rfl]
      · rw [if_neg hut] at hu
        have h3u := h3 u s' hu
        by_cases hkk : key u = key t
        · rw [hkk, he] at h3u
          exact EntrySt.noConfusion h3u
        · rw [if_neg hkk]
          exact h3u
  | join t u hp he =>
    refine ⟨h1, h2, ?_⟩
    intro v s' hv
    dsimp only at hv ⊢
    rw [Function.update_apply] at hv
    by_cases hvt : v = t
    · rw [if_pos hvt] at hv
      exact TaskSt.noConfusion hv
    · rw [if_neg hvt] at hv
      exact h3 v s' hv
  | wake t s hp he =>
    refine ⟨h1, h2, ?_⟩
    intro u s' hu
    dsimp only at hu ⊢
    rw [Function.update_apply] at hu
    by_cases hut : u = t
    · rw [if_pos hut] at hu
      injection hu with hss
      subst hss
      rw [hut]
      exact he
    · rw [if_neg hut] at hu
      exact h3 u s' hu

theorem SFInv_reach {key : Nat → String} {st0 st : SFState}
    (h0 : SFInit st0) (hr : SFReach key st0 st) : SFInv key st := by
  induction hr with
  | refl => exact SFInv_init h0 key
  | tail h hstep ih => exact SFInv_step ih hstep

/-- Claim C1: in every state reachable from a legal initial state under an
arbitrary interleaving of the `Resolve` protocol, the resolver has run at
most once per key, and any two tasks that finished for the same key
observed the same status. -/
theorem C1_single_flight (key : Nat → String) (st0 st : SFState)
    (h0 : SFInit st0) (hr : SFReach key st0 st) :
    (∀ k, st.invocations k ≤ 1) ∧
    (∀ t u s s', st.task t = TaskSt.finished s → st.task u = TaskSt.finished s' →
      key t = key u → s = s') := by
  obtain ⟨h1, _, h3⟩ := SFInv_reach h0 hr
  refine ⟨h1, ?_⟩
  intro t u s s' ht hu hk
  have et := h3 t s ht
  have eu := h3 u s' hu
  rw [hk, eu] at et
  injection et with h
  exact h.symm

/-- Witness for C1: a concrete two-step run — task 0 starts resolving the
cold key and completes with `valid` — has at most one invocation of the
resolver for that key, and the finished task observed one status. -/
theorem C1_single_flight_witness :
    sfSt2.invocations "k" ≤ 1 ∧ RStatus.valid = RStatus.valid :=
  ⟨(C1_single_flight sfKey sfInit0 sfSt2
      ⟨fun _ => rfl, fun _ _ h => EntrySt.noConfusion h, fun _ => rfl⟩
      (SFReach.tail (SFReach.tail (SFReach.refl sfInit0)
          (SFStep.start sfInit0 0 rfl rfl))
        (SFStep.complete sfSt1 0 RStatus.valid (by decide) (by decide)))).1 "k",
    (C1_single_flight sfKey sfInit0 sfSt2
      ⟨fun _ => rfl, fun _ _ h => EntrySt.noConfusion h, fun _ => rfl⟩
      (SFReach.tail (SFReach.tail (SFReach.refl sfInit0)
          (SFStep.start sfInit0 0 rfl rfl))
        (SFStep.complete sfSt1 0 RStatus.valid (by decide) (by decide)))).2
      0 0 RStatus.valid RStatus.valid (by decide) (by decide) rfl⟩

/-! ### Claim C4: sequential vs concurrent issue multisets -/

theorem sum_of_nil_lists {α : Type} :
    ∀ (ls : List (List α)), (∀ l ∈ ls, l = []) →
      (ls.map Multiset.ofList).sum = 0
  | [], _ => by simp
  | hd :: tl, h => by
    have hhd := h hd (List.mem_cons_self hd tl)
    have htl := sum_of_nil_lists tl (fun l hl => h l (List.mem_cons_of_mem hd hl))
    simp only [List.map_cons, List.sum_cons, hhd, htl]
    simp

theorem sum_set_cons {α : Type} :
    ∀ (ls : List (List α)) (i : Nat) (x : α) (rest : List α),
      ls.get? i = some (x :: rest) →
      (ls.map Multiset.ofList).sum =
        x ::ₘ ((ls.set i rest).map Multiset.ofList).sum
  | [], i, x, rest, h => by simp at h
  | hd :: tl, 0, x, rest, h => by
    simp only [List.get?] at h
    injection h with h
    subst h
    simp only [List.set, List.map_cons, List.sum_cons, ← Multiset.cons_coe]
    rw [Multiset.cons_add]
  | hd :: tl, i+1, x, rest, h => by
    simp only [List.get?] at h
    have htl := sum_set_cons tl i x rest h
    simp only [List.set, List.map_cons, List.sum_cons]
    rw [htl, Multiset.add_cons]

theorem interleave_multiset {α : Type} {ls : List (List α)} {out : List α}
    (h : Interleave ls out) :
    Multiset.ofList out = (ls.map Multiset.ofList).sum := by
  induction h with
  | done ls hall => simp [sum_of_nil_lists ls hall]
  | pick ls i x rest out hget htail ih =>
    rw [← Multiset.cons_coe, ih, sum_set_cons ls i x rest hget]

theorem coe_flatMap_issues (emit : Event → List Issue) (opts : Options) :
    ∀ (docs : List Document),
      ((docs.map (testDocumentIssues emit opts)).map Multiset.ofList).sum =
        Multiset.ofList (testDocumentsSeqIssues emit opts docs)
  | [] => by simp [testDocumentsSeqIssues]
  | d :: ds => by
    simp only [List.map_cons, List.sum_cons, testDocumentsSeqIssues, List.flatMap_cons]
    rw [coe_flatMap_issues emit opts ds]
    simp [testDocumentsSeqIssues, ← Multiset.coe_add]

/-- Counterexample to claim C4: on an empty document store the concurrent
mode emits its advisory warning issue while the sequential mode emits
nothing, so the two modes do not produce the same multiset of issues. -/
theorem C4_multiset_counterexample :
    ConcurrentRunOutput emitNone optsDefault [] [advisoryIssue] ∧
    ¬ (Multiset.ofList [advisoryIssue] =
        Multiset.ofList (testDocumentsSeqIssues emitNone optsDefault [])) := by
  constructor
  · exact ⟨[], Interleave.done [] (fun l hl => absurd hl (List.not_mem_nil l)), rfl⟩
  · intro h
    simp [testDocumentsSeqIssues] at h

/-- Claim C4 amended: for the same input document tree and checkers, every
issue list the concurrent mode can produce has exactly the multiset of the
sequential mode plus the single concurrent-mode advisory warning; apart
from that extra warning, only the ordering differs. -/
theorem C4_order_equivalence_amended (emit : Event → List Issue) (opts : Options)
    (docs : List Document) (out : List Issue)
    (h : ConcurrentRunOutput emit opts docs out) :
    Multiset.ofList out =
      advisoryIssue ::ₘ Multiset.ofList (testDocumentsSeqIssues emit opts docs) := by
  obtain ⟨body, hint, rfl⟩ := h
  rw [← Multiset.cons_coe, interleave_multiset hint, coe_flatMap_issues emit opts docs]

/-- Witness for C4 amended: one no-favicon document; the concurrent run
emitting the advisory and then the favicon issue matches the sequential
multiset plus the advisory. -/
theorem C4_order_equivalence_amended_witness :
    Multiset.ofList [advisoryIssue, faviconMissingIssue] =
      advisoryIssue ::ₘ
        Multiset.ofList (testDocumentsSeqIssues emitNone optsFav [docNoFav]) :=
  C4_order_equivalence_amended emitNone optsFav [docNoFav] [advisoryIssue, faviconMissingIssue]
    ⟨[faviconMissingIssue],
      Interleave.pick [testDocumentIssues emitNone optsFav docNoFav] 0
        faviconMissingIssue [] [] (by decide)
        (Interleave.done ([testDocumentIssues emitNone optsFav docNoFav].set 0 [])
          (by simp)),
      rfl⟩

end Htmltest
